import Mathlib

/-!
Verification of the element-definition language toolchain of the
`particle_sim` repository: positions and diagnostics, the `IdMap`
interning registry, the AST and its const-evaluator, the element
compiler, and the combinator parser.  Strings are modelled as lists of
characters; machine integers as natural numbers (with explicit wrapping
where the code casts).
-/

namespace ParticleSim

/-- Source location: file id, byte offset, 1-based line, byte length
(`u16` in the code). -/
structure Position where
  file : Nat
  offset : Nat
  line : Nat
  length : Nat
deriving DecidableEq

/-- `Position::extend_back_same_line`: include `len` bytes before the span. -/
def Position.extend_back_same_line (p : Position) (len : Nat) : Position :=
  { p with offset := p.offset - len, length := p.length + len }

/-- `Position::extend_to`: include everything from `p`'s start to the end of
`other`; the code computes `(other.offset - self.offset) as u16 + other.length`. -/
def Position.extend_to (p other : Position) : Position :=
  { p with length := (other.offset - p.offset) % 65536 + other.length }

/-- `Position::position`: attach an object to this position. -/
structure Positioned (T : Type) where
  object : T
  position : Position
deriving DecidableEq

def Position.position (p : Position) (object : T) : Positioned T :=
  ⟨object, p⟩

/-- `Position::char_inline`: the single byte at relative offset `pos`. -/
def Position.char_inline (p : Position) (pos : Nat) : Position :=
  { p with offset := p.offset + pos, length := 1 }

/-- RGBA color, one byte per channel (`AtomColor`). -/
structure AtomColor where
  r : Nat
  g : Nat
  b : Nat
  a : Nat
deriving DecidableEq

/-- `AtomColor::from_u32`: big-endian `0xrrggbbaa`. -/
def AtomColor.from_u32 (val : Nat) : AtomColor :=
  ⟨val / 2 ^ 24 % 256, val / 2 ^ 16 % 256, val / 2 ^ 8 % 256, val % 256⟩

def AtomColor.INVISIBLE : AtomColor := AtomColor.from_u32 0

def AtomColor.WHITE : AtomColor := AtomColor.from_u32 0xffffffff

def AtomColor.from_parts (r g b a : Nat) : AtomColor := ⟨r, g, b, a⟩

/-- Modelled from the spec: `AtomColor::from_grey` is called by the
const-evaluator but its definition is not among the provided source files.
The spec describes the two-digit case, which passes the assembled byte to
`from_grey`, as "greyscale from the byte, alpha implicit 0xFF (via
`from_grey`)", so `from_grey` replicates its byte into the three color
channels and sets alpha to 0xFF. -/
def AtomColor.from_grey (v : Nat) : AtomColor :=
  AtomColor.from_parts v v v 0xFF

/-- `JoinFace` (terrain.rs): meshing rule for adjacent faces. -/
inductive JoinFace where
  | Never
  | SameAlpha
deriving DecidableEq

def JoinFace.DEFAULT : JoinFace := JoinFace.SameAlpha

/-- A material definition (element.rs). -/
structure Element where
  color : AtomColor
  join_face : JoinFace
deriving DecidableEq

/-- `impl Default for Element`. -/
def Element.default : Element :=
  ⟨AtomColor.WHITE, JoinFace.SameAlpha⟩

/-- One voxel instance (terrain.rs). -/
structure Atom where
  color : AtomColor
  join_face : JoinFace
  element : Nat
deriving DecidableEq

/-- `impl CreateInstanceWithId for Element`. -/
def Element.create_instance (e : Element) (id : Nat) : Atom :=
  ⟨e.color, e.join_face, id⟩

/-- `IdMap<T>`: an insertion-ordered map from names to values; the id of an
entry is its index.  Models `indexmap::IndexMap` as a list of pairs. -/
structure IdMap (T : Type) where
  entries : List (List Char × T)
deriving DecidableEq

inductive InsertError where
  | DuplicateName
  | NoMoreIds
deriving DecidableEq

def IdMap.new (T : Type) : IdMap T := ⟨[]⟩

/-- `IdMap::insert`.  `maxValue` is `T::Id::max_value()` (255 for elements,
whose id type is `u8`).  Returns the result together with the map after the
call; on either error the map is returned unchanged. -/
def IdMap.insert (maxValue : Nat) (m : IdMap T) (name : List Char) (value : T) :
    Except InsertError Nat × IdMap T :=
  if name ∈ m.entries.map Prod.fst then
    (Except.error InsertError.DuplicateName, m)
  else if m.entries.length < maxValue then
    (Except.ok m.entries.length, ⟨m.entries ++ [(name, value)]⟩)
  else
    (Except.error InsertError.NoMoreIds, m)

/-- `IdMap::get`: positional lookup. -/
def IdMap.get (m : IdMap T) (index : Nat) : Option T :=
  (m.entries.get? index).map Prod.snd

/-- `IdMap::get_full`: positional lookup returning the name too. -/
def IdMap.get_full (m : IdMap T) (index : Nat) : Option (List Char × T) :=
  m.entries.get? index

/-- Helper for `get_full_by_name`: first index whose name matches. -/
def findEntry (name : List Char) : List (List Char × T) → Nat → Option (Nat × T)
  | [], _ => none
  | (k, v) :: rest, i => if k = name then some (i, v) else findEntry name rest (i + 1)

/-- `IdMap::get_full_by_name`. -/
def IdMap.get_full_by_name (m : IdMap T) (name : List Char) : Option (Nat × T) :=
  findEntry name m.entries 0

/-- `IdMap::iter`: `(id, name, value)` triples in insertion order. -/
def IdMap.iter (m : IdMap T) : List (Nat × List Char × T) :=
  m.entries.enum.map (fun p => (p.1, p.2.1, p.2.2))

/-- `IdMap::instance_of`. -/
def IdMap.instance_of (m : IdMap Element) (id : Nat) : Option Atom :=
  (m.get id).map (fun class_ => class_.create_instance id)

def Element.VOID_ID : Nat := 0

def Element.AIR_ID : Nat := 0

/-- `Element::create_map`: fresh registry seeded with `Void` and `Air`. -/
def Element.create_map : IdMap Element :=
  let m := IdMap.new Element
  let m := (m.insert 255 ['V', 'o', 'i', 'd'] ⟨AtomColor.INVISIBLE, JoinFace.SameAlpha⟩).2
  let m := (m.insert 255 ['A', 'i', 'r'] ⟨AtomColor.INVISIBLE, JoinFace.SameAlpha⟩).2
  m

/-- `IdMap<Element>::air` (the code unwraps; we keep the `Option`). -/
def IdMap.air (m : IdMap Element) : Option Atom :=
  m.instance_of Element.AIR_ID

/-- Diagnostic severity. -/
inductive Level where
  | Warn
  | Error
deriving DecidableEq

/-- Top-level parse errors of `parse_file` (parsing.rs). -/
inductive ParseError where
  | UnexpectedBlock
  | UnexpectedIdent
  | UnexpectedValue
deriving DecidableEq

/-- Const-evaluation errors (ast_evaluation.rs). -/
inductive EvalError where
  | NotConst
  | InvalidHexDigit
  | InvalidHexColorLen
deriving DecidableEq

/-- Element-compilation errors (parsing.rs). -/
inductive ElementError where
  | UnexpectedAstKind
  | VariableType (expected found : List Char)
  | DoubleDefineVariable
  | UnknownVariable
  | DoubleDefineElement (name : List Char)
  | ElementLimitReached
deriving DecidableEq

/-- The nom error kinds this grammar can produce (ast_generation.rs). -/
inductive ErrorKind where
  | Tag
  | Alt
  | AlphaNumeric
  | TakeWhile1
deriving DecidableEq

/-- Syntax-error kinds of the AST generator (ast_generation.rs). -/
inductive GenerateErrorKind where
  | Nom (kind : ErrorKind)
  | WrongChar (expected : Char)
  | ExpectedIdentifier
  | ExpectedKeywordElement
  | ExpectedEof
deriving DecidableEq

/-- File-reading errors (io.rs); the `io::Error` payloads are omitted, they
do not affect the severity. -/
inductive ReadFilesErrorKind where
  | ReadDirectory
  | OpenFile (name : List Char)
  | ReadFile (name : List Char)
deriving DecidableEq

/-- The closed union of the toolchain's diagnostic kinds (the code passes
them as trait objects `Box<dyn Diagnostic>`). -/
inductive Diag where
  | parse (e : ParseError)
  | eval (e : EvalError)
  | elem (e : ElementError)
  | generate (e : GenerateErrorKind)
  | readFiles (e : ReadFilesErrorKind)
deriving DecidableEq

/-- Each kind's `Diagnostic::level`. -/
def Diag.level : Diag → Level
  | .parse _ => .Error
  | .eval _ => .Error
  | .elem e =>
    match e with
    | .DoubleDefineVariable | .UnknownVariable
    | .DoubleDefineElement _ | .ElementLimitReached => .Warn
    | .UnexpectedAstKind | .VariableType _ _ => .Error
  | .generate _ => .Error
  | .readFiles e =>
    match e with
    | .OpenFile _ | .ReadFile _ => .Warn
    | .ReadDirectory => .Error

/-- The diagnostics bag: collected messages plus the monotonic
"has any Error occurred" flag. -/
structure Diagnostics where
  diagnostics : List (Option Position × Diag)
  errored : Bool
deriving DecidableEq

/-- `Diagnostics::init`. -/
def Diagnostics.init : Diagnostics := ⟨[], false⟩

/-- `Diagnostics::add`. -/
def Diagnostics.add (d : Diagnostics) (position : Position) (diagnostic : Diag) :
    Diagnostics :=
  ⟨d.diagnostics ++ [(some position, diagnostic)],
   d.errored || (diagnostic.level == Level.Error)⟩

/-- `Diagnostics::add_positioned`. -/
def Diagnostics.add_positioned (d : Diagnostics) (val : Positioned Diag) : Diagnostics :=
  d.add val.position val.object

/-- `Diagnostics::add_unpositioned`. -/
def Diagnostics.add_unpositioned (d : Diagnostics) (diagnostic : Diag) : Diagnostics :=
  ⟨d.diagnostics ++ [(none, diagnostic)],
   d.errored || (diagnostic.level == Level.Error)⟩

/-- `Diagnostics::has_errored`. -/
def Diagnostics.has_errored (d : Diagnostics) : Bool := d.errored

/-- Result of const-evaluating an AST literal (value.rs). -/
inductive ValueUntyped where
  | Color (c : AtomColor)
  | EnumVariant (v : List Char)
  | Unit
deriving DecidableEq

/-- `ValueUntyped::variant_name`. -/
def ValueUntyped.variant_name : ValueUntyped → List Char
  | .Color _ => "Color".toList
  | .EnumVariant v => "\x7b ".toList ++ v ++ " \x7d".toList
  | .Unit => "()".toList

/-- The positioned AST (parsing.rs). -/
inductive Ast where
  | Block (b : Positioned (List Ast))
  | Ident (i : Positioned (List Char))
  | HexColor (c : Positioned (List Char))
  | Element (name : Positioned (List Char)) (body : Positioned (List Ast))
  | VariableAssign (variable_ : Positioned (List Char)) (value : Ast)

/-- `Ast::position`. -/
def Ast.position : Ast → Position
  | .Block b => b.position
  | .Ident i => i.position
  | .HexColor c => c.position.extend_back_same_line 1
  | .Element name body => name.position.extend_to body.position
  | .VariableAssign variable_ value => variable_.position.extend_to value.position

mutual

/-- The source's `PartialEq for Ast`: structural equality that ignores
positions. -/
def Ast.peq : Ast → Ast → Bool
  | .Ident a, .Ident b => a.object == b.object
  | .Block a, .Block b => Ast.listPeq a.object b.object
  | .HexColor a, .HexColor b => a.object == b.object
  | .Element an ab, .Element bn bb =>
    an.object == bn.object && Ast.listPeq ab.object bb.object
  | .VariableAssign av avl, .VariableAssign bv bvl =>
    av.object == bv.object && Ast.peq avl bvl
  | _, _ => false

/-- Elementwise `Ast.peq` on AST lists. -/
def Ast.listPeq : List Ast → List Ast → Bool
  | [], [] => true
  | a :: as_, b :: bs => Ast.peq a b && Ast.listPeq as_ bs
  | _, _ => false

end

/-- Whether a character is one of the hex digits accepted by the validation
loop of `Ast::const_eval` (`matches!(digit, '0'..='9' | 'a'..='f' | 'A'..='F')`;
the bounds are the code points of those characters). -/
def isHexDigitChar (c : Char) : Bool :=
  (48 ≤ c.toNat && c.toNat ≤ 57) || (97 ≤ c.toNat && c.toNat ≤ 102) ||
  (65 ≤ c.toNat && c.toNat ≤ 70)

/-- The byte offset, within a hex-color literal, of the first character that
is not an ASCII hex digit; mirrors the validation loop of `Ast::const_eval`
over `char_indices` (which yields byte offsets). -/
def firstNonHexOffset : List Char → Nat → Option Nat
  | [], _ => none
  | c :: cs, off =>
    if isHexDigitChar c then firstNonHexOffset cs (off + c.utf8Size)
    else some off

/-- The local `fn map(v: u8)` of `Ast::const_eval`: hex digit value.  The
code reads the byte; after validation every character is ASCII, so the byte
equals the character's code. -/
def hexMap (c : Char) : Nat :=
  if 48 ≤ c.toNat ∧ c.toNat ≤ 57 then c.toNat - 48
  else if 97 ≤ c.toNat ∧ c.toNat ≤ 102 then c.toNat - 97 + 0xA
  else if 65 ≤ c.toNat ∧ c.toNat ≤ 70 then c.toNat - 65 + 0xA
  else 0

/-- The `Ast::HexColor` arm of `Ast::const_eval`.  The length match is over
`c.as_bytes()`; validation has already ensured every character is ASCII, so
the byte slice coincides with the character sequence. -/
def constEvalHex (p : Position) (cs : List Char) :
    Except (Positioned EvalError) ValueUntyped :=
  match firstNonHexOffset cs 0 with
  | some off => .error ((p.char_inline off).position .InvalidHexDigit)
  | none =>
    match cs with
    | [y] => .ok (.Color (AtomColor.from_grey (hexMap y)))
    | [y0, y1] => .ok (.Color (AtomColor.from_grey (hexMap y0 <<< 4 ||| hexMap y1)))
    | [r, g, b] =>
      .ok (.Color (AtomColor.from_parts (hexMap r <<< 4) (hexMap g <<< 4) (hexMap b <<< 4) 0xFF))
    | [r, g, b, a] =>
      .ok (.Color (AtomColor.from_parts (hexMap r <<< 4) (hexMap g <<< 4) (hexMap b <<< 4)
        (hexMap a <<< 4)))
    | [r0, r1, g0, g1, b0, b1] =>
      .ok (.Color (AtomColor.from_parts (hexMap r0 <<< 4 ||| hexMap r1)
        (hexMap g0 <<< 4 ||| hexMap g1) (hexMap b0 <<< 4 ||| hexMap b1) 0xFF))
    | [r0, r1, g0, g1, b0, b1, a0, a1] =>
      .ok (.Color (AtomColor.from_parts (hexMap r0 <<< 4 ||| hexMap r1)
        (hexMap g0 <<< 4 ||| hexMap g1) (hexMap b0 <<< 4 ||| hexMap b1)
        (hexMap a0 <<< 4 ||| hexMap a1)))
    | _ => .error (p.position .InvalidHexColorLen)

/-- `Ast::const_eval`. -/
def Ast.const_eval : Ast → Except (Positioned EvalError) ValueUntyped
  | .Block ⟨[], _⟩ => .ok .Unit
  | .Block ⟨[ast], _⟩ => ast.const_eval
  | .Block b => .error (b.position.position .NotConst)
  | .Ident i => .ok (.EnumVariant i.object)
  | .HexColor c => constEvalHex c.position c.object
  | .Element _ _ => .ok .Unit
  | .VariableAssign _ _ => .ok .Unit

/-- The loop body of `parse_element`, with the mutable state (element under
construction, `color_set`, `join_face_set`, diagnostics) passed explicitly. -/
def parse_element_go (element : Element) (color_set join_face_set : Bool)
    (d : Diagnostics) : List Ast → Element × Diagnostics
  | [] => (element, d)
  | ast :: rest =>
    match ast with
    | .VariableAssign variable_ value =>
      if variable_.object = "color".toList then
        let d := if color_set then d.add value.position (.elem .DoubleDefineVariable) else d
        match value.const_eval with
        | .ok (.Color val) =>
          parse_element_go { element with color := val } true join_face_set d rest
        | .ok v =>
          parse_element_go element true join_face_set
            (d.add value.position (.elem (.VariableType "color".toList v.variant_name))) rest
        | .error e =>
          parse_element_go element true join_face_set
            (d.add e.position (.eval e.object)) rest
      else if variable_.object = "join_face".toList then
        let d := if join_face_set then d.add value.position (.elem .DoubleDefineVariable) else d
        match value.const_eval with
        | .ok v =>
          if v = .EnumVariant "Never".toList then
            parse_element_go { element with join_face := .Never } color_set true d rest
          else if v = .EnumVariant "SameAlpha".toList then
            parse_element_go { element with join_face := .SameAlpha } color_set true d rest
          else
            parse_element_go element color_set true
              (d.add value.position
                (.elem (.VariableType "\x7b Never | SameAlpha \x7d".toList v.variant_name))) rest
        | .error e =>
          parse_element_go element color_set true
            (d.add e.position (.eval e.object)) rest
      else
        parse_element_go element color_set join_face_set
          (d.add variable_.position (.elem .UnknownVariable)) rest
    | _ =>
      parse_element_go element color_set join_face_set
        (d.add ast.position (.elem .UnexpectedAstKind)) rest

/-- `parse_element` (parsing.rs): compile an element body, starting from
`Element::default()`. -/
def parse_element (body : List Ast) (d : Diagnostics) : Element × Diagnostics :=
  parse_element_go Element.default false false d body

/-! ## The combinator parser (ast_generation.rs)

`Span` models `nom_locate::LocatedSpan<&str, FileId>`: the text fragment
together with the byte offset and 1-based line number of its start.  A
parser takes the remaining-input span and either fails with a positioned
`GenerateError` or returns the remaining input after the match together
with a value. -/

structure Span where
  s : List Char
  offset : Nat
  line : Nat
  file : Nat
deriving DecidableEq

/-- Byte length of a character list (`str::len`). -/
def utf8Len : List Char → Nat
  | [] => 0
  | c :: cs => c.utf8Size + utf8Len cs

/-- `Position::from(Span)`: offset and line of the span's start, byte length
of its fragment (saturated to `u16::MAX`). -/
def Position.fromSpan (sp : Span) : Position :=
  ⟨sp.file, sp.offset, sp.line, min (utf8Len sp.s) 65535⟩

/-- `Positioned<&str>::from(Span)`. -/
def Positioned.fromSpan (sp : Span) : Positioned (List Char) :=
  ⟨sp.s, Position.fromSpan sp⟩

/-- `Position::from_start_end`: `start..end` (length cast `as u16`). -/
def Position.from_start_end (start end_ : Span) : Position :=
  ⟨start.file, start.offset, start.line, (end_.offset - start.offset) % 65536⟩

/-- Advance a span over consumed characters `taken`, leaving `rest`;
`LocatedSpan` tracks offsets in bytes and counts newlines for the line. -/
def Span.afterConsume (sp : Span) (taken rest : List Char) : Span :=
  { sp with
    s := rest,
    offset := sp.offset + utf8Len taken,
    line := sp.line + (taken.filter (· = '\n')).length }

structure GenerateError where
  position : Position
  kind : GenerateErrorKind
deriving DecidableEq

/-- `nom::error::ParseError::from_error_kind` for `GenerateError`:
`AlphaNumeric` is rewritten to `ExpectedIdentifier`. -/
def fromErrorKind (sp : Span) (k : ErrorKind) : GenerateError :=
  match k with
  | .AlphaNumeric => ⟨Position.fromSpan sp, .ExpectedIdentifier⟩
  | k => ⟨Position.fromSpan sp, .Nom k⟩

/-- The result of a parser: error, or remaining input and value. -/
def PResult (α : Type) : Type := Except GenerateError (Span × α)

/-- nom's `char(c)` on complete input: `from_char` builds a `WrongChar`. -/
def pChar (c : Char) (sp : Span) : PResult Char :=
  match sp.s with
  | c' :: rest =>
    if c' = c then .ok (sp.afterConsume [c'] rest, c)
    else .error ⟨Position.fromSpan sp, .WrongChar c⟩
  | [] => .error ⟨Position.fromSpan sp, .WrongChar c⟩

/-- nom's `multispace0`: skip spaces, tabs, carriage returns and newlines;
never fails.  Returns the remaining input (the matched fragment is never
used by this grammar). -/
def pMultispace0 (sp : Span) : Span :=
  let p : Char → Bool := fun c => c = ' ' || c = '\t' || c = '\r' || c = '\n'
  sp.afterConsume (sp.s.takeWhile p) (sp.s.dropWhile p)

/-- `trim_start` (ast_generation.rs). -/
def trim_start (sp : Span) : Span := pMultispace0 sp

/-- nom's `tag`. -/
def pTag (t : List Char) (sp : Span) : PResult (List Char) :=
  if sp.s.take t.length = t then
    .ok (sp.afterConsume t (sp.s.drop t.length), t)
  else
    .error (fromErrorKind sp .Tag)

/-- nom's `take_while1`, with the error kind it reports. -/
def pTakeWhile1 (p : Char → Bool) (k : ErrorKind) (sp : Span) : PResult Span :=
  let m := sp.s.takeWhile p
  if m.isEmpty then .error (fromErrorKind sp k)
  else .ok (sp.afterConsume m (sp.s.dropWhile p), { sp with s := m })

/-- nom's `alphanumeric1` (ASCII alphanumeric). -/
def pAlphanumeric1 (sp : Span) : PResult Span :=
  pTakeWhile1 (fun c =>
    ('0' ≤ c && c ≤ '9') || ('a' ≤ c && c ≤ 'z') || ('A' ≤ c && c ≤ 'Z'))
    .AlphaNumeric sp

/-- Rust's `char::is_whitespace` (the Unicode White_Space property). -/
def rustIsWhitespace (c : Char) : Bool :=
  c.toNat = 0x09 || c.toNat = 0x0A || c.toNat = 0x0B || c.toNat = 0x0C ||
  c.toNat = 0x0D || c.toNat = 0x20 || c.toNat = 0x85 || c.toNat = 0xA0 ||
  c.toNat = 0x1680 || (0x2000 ≤ c.toNat && c.toNat ≤ 0x200A) ||
  c.toNat = 0x2028 || c.toNat = 0x2029 || c.toNat = 0x202F ||
  c.toNat = 0x205F || c.toNat = 0x3000

/-- Rust's `char::is_ascii_digit`. -/
def rustIsAsciiDigit (c : Char) : Bool := '0' ≤ c && c ≤ '9'

/-- Rust's `char::is_ascii_punctuation`. -/
def rustIsAsciiPunctuation (c : Char) : Bool :=
  (0x21 ≤ c.toNat && c.toNat ≤ 0x2F) || (0x3A ≤ c.toNat && c.toNat ≤ 0x40) ||
  (0x5B ≤ c.toNat && c.toNat ≤ 0x60) || (0x7B ≤ c.toNat && c.toNat ≤ 0x7E)

/-- The predicate of `ident`'s leading `take_while1`. -/
def identStartChar (c : Char) : Bool :=
  !rustIsWhitespace c && !rustIsAsciiDigit c && !rustIsAsciiPunctuation c

/-- `ident` (ast_generation.rs): `recognize(pair(take_while1 …, take_till
is_whitespace))` terminated by `multispace0`, every error mapped to
`ExpectedIdentifier`. -/
def pIdent (sp : Span) : PResult (Positioned (List Char)) :=
  let m1 := sp.s.takeWhile identStartChar
  if m1.isEmpty then .error ⟨Position.fromSpan sp, .ExpectedIdentifier⟩
  else
    let sp1 := sp.afterConsume m1 (sp.s.dropWhile identStartChar)
    let m2 := sp1.s.takeWhile (fun c => !rustIsWhitespace c)
    let sp2 := sp1.afterConsume m2 (sp1.s.dropWhile (fun c => !rustIsWhitespace c))
    .ok (pMultispace0 sp2, Positioned.fromSpan { sp with s := m1 ++ m2 })

/-- `hex_color` (ast_generation.rs): `delimited(char('#'), alphanumeric1,
multispace0)` mapped to `Ast::HexColor`. -/
def pHexColor (sp : Span) : PResult Ast :=
  match pChar '#' sp with
  | .error e => .error e
  | .ok (sp1, _) =>
    match pAlphanumeric1 sp1 with
    | .error e => .error e
    | .ok (sp2, color) => .ok (pMultispace0 sp2, Ast.HexColor (Positioned.fromSpan color))

/-- The `map_err` of `element`: a `Nom(Tag)` error (the failed `element`
keyword) becomes `ExpectedKeywordElement`. -/
def mapElementErr (e : GenerateError) : GenerateError :=
  match e.kind with
  | .Nom .Tag => { e with kind := .ExpectedKeywordElement }
  | _ => e

inductive BlockTy where
  | Bracket
  | File
deriving DecidableEq

mutual

/-- `ast` (ast_generation.rs): `alt((block(Bracket).map(Block), element,
variable_assign, ident.map(Ident), hex_color))`.  nom's `alt` tries the
branches in order and, when all fail, keeps the last branch's error (the
`Alt` append leaves it unchanged).  `fuel` bounds the recursion depth; every
statement consumes at least one character, so any fuel larger than the input
length is enough. -/
def pAst (fuel : Nat) (sp : Span) : PResult Ast :=
  match fuel with
  | 0 => .error ⟨Position.fromSpan sp, .Nom .Alt⟩
  | fuel + 1 =>
    match pBlock fuel .Bracket sp with
    | .ok (rest, b) => .ok (rest, Ast.Block b)
    | .error _ =>
      match pElement fuel sp with
      | .ok r => .ok r
      | .error _ =>
        match pVariableAssign fuel sp with
        | .ok r => .ok r
        | .error _ =>
          match pIdent sp with
          | .ok (rest, i) => .ok (rest, Ast.Ident i)
          | .error _ => pHexColor sp

/-- `element` (ast_generation.rs). -/
def pElement (fuel : Nat) (sp : Span) : PResult Ast :=
  match fuel with
  | 0 => .error (mapElementErr ⟨Position.fromSpan sp, .Nom .Alt⟩)
  | fuel + 1 =>
    match pTag "element".toList sp with
    | .error e => .error (mapElementErr e)
    | .ok (sp1, _) =>
      let sp2 := pMultispace0 sp1
      match pIdent sp2 with
      | .error e => .error (mapElementErr e)
      | .ok (sp3, name) =>
        let sp4 := pMultispace0 sp3
        match pBlock fuel .Bracket sp4 with
        | .error e => .error (mapElementErr e)
        | .ok (sp5, body) => .ok (sp5, Ast.Element name body)

/-- `variable_assign` (ast_generation.rs). -/
def pVariableAssign (fuel : Nat) (sp : Span) : PResult Ast :=
  match fuel with
  | 0 => .error ⟨Position.fromSpan sp, .Nom .Alt⟩
  | fuel + 1 =>
    match pIdent sp with
    | .error e => .error e
    | .ok (sp1, variable_) =>
      match pChar '=' sp1 with
      | .error e => .error e
      | .ok (sp2, _) =>
        let sp3 := pMultispace0 sp2
        match pAst fuel sp3 with
        | .error e => .error e
        | .ok (sp4, value) => .ok (sp4, Ast.VariableAssign variable_ value)

/-- `BlockTy::open` followed by the loop of `block` (ast_generation.rs). -/
def pBlock (fuel : Nat) (ty : BlockTy) (sp : Span) : PResult (Positioned (List Ast)) :=
  match fuel with
  | 0 => .error ⟨Position.fromSpan sp, .Nom .Alt⟩
  | fuel + 1 =>
    match ty with
    | .Bracket =>
      match pChar '\x7b' sp with
      | .error e => .error e
      | .ok (sp1, _) => pBlockLoop fuel ty sp [] (pMultispace0 sp1)
    | .File => pBlockLoop fuel ty sp [] sp

/-- The loop of `block`: try `BlockTy::close`; on success finish the block,
otherwise (unless at end of input) parse one more statement. -/
def pBlockLoop (fuel : Nat) (ty : BlockTy) (original : Span) (acc : List Ast)
    (s : Span) : PResult (Positioned (List Ast)) :=
  match fuel with
  | 0 => .error ⟨Position.fromSpan s, .Nom .Alt⟩
  | fuel + 1 =>
    let closed : PResult Unit :=
      match ty with
      | .Bracket =>
        match pChar '\x7d' (trim_start s) with
        | .error e => .error e
        | .ok (sp1, _) => .ok (pMultispace0 sp1, ())
      | .File =>
        let s' := trim_start s
        if s'.s.isEmpty then .ok (s', ())
        else .error ⟨Position.fromSpan s', .ExpectedEof⟩
    match closed with
    | .ok (rem, _) => .ok (rem, (Position.from_start_end original rem).position acc)
    | .error e =>
      if s.s.isEmpty then .error e
      else
        match pAst fuel s with
        | .error e' => .error e'
        | .ok (s', next) => pBlockLoop fuel ty original (acc ++ [next]) s'

end

/-- `Ast::generate` (ast_generation.rs): parse a whole file; on a parse
error, report one diagnostic and return no AST.  The fuel passed to the
fueled parser exceeds anything the loops can consume on this input. -/
def Ast.generate (contents : List Char) (file : Nat) (d : Diagnostics) :
    List Ast × Diagnostics :=
  let s : Span := ⟨contents, 0, 1, file⟩
  match pBlock (2 * contents.length + 8) .File (trim_start s) with
  | .ok (_, asts) => (asts.object, d)
  | .error e => ([], d.add e.position (.generate e.kind))

/-- `parse_file` (parsing.rs). -/
def parse_file (code : List Char) (file : Nat) (d : Diagnostics)
    (elements : IdMap Element) : Diagnostics × IdMap Element :=
  let (asts, d) := Ast.generate code file d
  asts.foldl
    (fun acc ast =>
      let (d, elements) := acc
      match ast with
      | .Element name body =>
        let (element, d) := parse_element body.object d
        match elements.insert 255 name.object element with
        | (.ok _, elements) => (d, elements)
        | (.error .DuplicateName, elements) =>
          (d.add ast.position (.elem (.DoubleDefineElement name.object)), elements)
        | (.error .NoMoreIds, elements) =>
          (d.add ast.position (.elem .ElementLimitReached), elements)
      | .Block b => (d.add b.position (.parse .UnexpectedBlock), elements)
      | .Ident i => (d.add i.position (.parse .UnexpectedIdent), elements)
      | .VariableAssign i _ => (d.add i.position (.parse .UnexpectedIdent), elements)
      | .HexColor c => (d.add c.position (.parse .UnexpectedValue), elements))
    (d, elements)

/-! ## Auxiliary definitions used by the statements -/

/-- `Positioned::test_position`: a fixed position for expected values whose
position is irrelevant (AST equality ignores it). -/
def test_position (object : T) : Positioned T :=
  ⟨object, ⟨0, 0, 0, 1⟩⟩

/-- Compile the body of a lone parsed `element` declaration, as `parse_file`
does for each `Ast::Element` node. -/
def compileSingleElement (asts : List Ast) (d : Diagnostics) :
    Option (Element × Diagnostics) :=
  match asts with
  | [Ast.Element _ body] => some (parse_element body.object d)
  | _ => none

/-- The minimal-element scenario source text. -/
def bedrockSource : List Char :=
  "element Bedrock \x7b\n    color = #686868\n\x7d".toList

/-- A file whose first statement is an unexpected token (`=`), followed by a
well-formed element declaration. -/
def badStatementSource : List Char :=
  "= #fff\nelement Foo \x7b\x7d".toList

/-- Two declarations of the same element name, with different colors, in one
file. -/
def duplicateFooSource : List Char :=
  ("element Foo \x7b\n    color = #686868\n\x7d\n" ++
   "element Foo \x7b\n    color = #ff0000\n\x7d").toList

/-- An element body whose color assignment is a 7-digit hex literal. -/
def badColorBody (q : Position) : List Ast :=
  [Ast.VariableAssign (test_position "color".toList)
    (Ast.HexColor (q.position "1234567".toList))]

/-- Run a sequence of `insert` calls, collecting each call's result and
threading the map through. -/
def insertSeq (maxValue : Nat) (m : IdMap T) :
    List (List Char × T) → List (Except InsertError Nat) × IdMap T
  | [] => ([], m)
  | (name, value) :: rest =>
    let step := m.insert maxValue name value
    let result := insertSeq maxValue step.2 rest
    (step.1 :: result.1, result.2)

/-- One call against a `Diagnostics` bag, through any of its three adding
methods. -/
inductive AddOp where
  | add (position : Position) (diagnostic : Diag)
  | add_positioned (val : Positioned Diag)
  | add_unpositioned (diagnostic : Diag)

/-- The diagnostic an `AddOp` carries. -/
def AddOp.diag : AddOp → Diag
  | .add _ dg => dg
  | .add_positioned v => v.object
  | .add_unpositioned dg => dg

/-- Perform one adding call. -/
def applyAddOp (d : Diagnostics) : AddOp → Diagnostics
  | .add p dg => d.add p dg
  | .add_positioned v => d.add_positioned v
  | .add_unpositioned dg => d.add_unpositioned dg

/-- Perform a sequence of adding calls. -/
def applyAddOps (d : Diagnostics) (ops : List AddOp) : Diagnostics :=
  ops.foldl applyAddOp d

/-! ## Theorems -/

/-- C1: parsing `element Bedrock \x7b color = #686868 \x7d` yields, with
zero diagnostics, exactly one `Element` AST node named `Bedrock` whose body
is the single assignment of `color` to `HexColor("686868")` (equality up to
positions, as the source's `PartialEq`), and compiling that body with
`parse_element` yields color `(0x68, 0x68, 0x68, 0xFF)` and the default
join-face, again with zero diagnostics. -/
theorem bedrock_element_scenario :
    (Ast.generate bedrockSource 0 Diagnostics.init).2 = Diagnostics.init ∧
    Ast.listPeq (Ast.generate bedrockSource 0 Diagnostics.init).1
      [Ast.Element (test_position "Bedrock".toList)
        (test_position [Ast.VariableAssign (test_position "color".toList)
          (Ast.HexColor (test_position "686868".toList))])] = true ∧
    compileSingleElement (Ast.generate bedrockSource 0 Diagnostics.init).1
        Diagnostics.init
      = some (⟨⟨0x68, 0x68, 0x68, 0xFF⟩, JoinFace.DEFAULT⟩, Diagnostics.init) := by
  refine ⟨?_, ?_, ?_⟩ <;> decide

/-- C5 counterexample: `const_eval` of `HexColor("abc")` places each nibble
in the HIGH half of its channel byte, `(0xa0, 0xb0, 0xc0, 0xFF)`; the nibble
is not duplicated, so the claimed `(0xaa, 0xbb, 0xcc, 0xFF)` is wrong. -/
theorem hex_nibble_duplication_counterexample :
    Ast.const_eval (Ast.HexColor (test_position "abc".toList))
      = .ok (.Color ⟨0xa0, 0xb0, 0xc0, 0xFF⟩) ∧
    (⟨0xa0, 0xb0, 0xc0, 0xFF⟩ : AtomColor) ≠ ⟨0xaa, 0xbb, 0xcc, 0xFF⟩ :=
  ⟨rfl, by decide⟩

/-- C5 amended: a single hex digit `d` gives the greyscale color whose grey
byte is the nibble VALUE (digit `d` gives byte `0x0d`), alpha `0xFF`; three
hex digits give channels with each nibble in the byte's high half (digit `r`
gives byte `0xr0`), alpha `0xFF`. -/
theorem hex_short_forms_amended (p : Position) :
    (∀ d : Char, isHexDigitChar d = true →
      Ast.const_eval (Ast.HexColor (p.position [d]))
        = .ok (.Color ⟨hexMap d, hexMap d, hexMap d, 0xFF⟩)) ∧
    (∀ r g b : Char, isHexDigitChar r = true → isHexDigitChar g = true →
      isHexDigitChar b = true →
      Ast.const_eval (Ast.HexColor (p.position [r, g, b]))
        = .ok (.Color ⟨hexMap r <<< 4, hexMap g <<< 4, hexMap b <<< 4, 0xFF⟩)) := by
  constructor
  · intro d hd
    simp [Ast.const_eval, Position.position, constEvalHex, firstNonHexOffset, hd,
      AtomColor.from_grey, AtomColor.from_parts]
  · intro r g b hr hg hb
    simp [Ast.const_eval, Position.position, constEvalHex, firstNonHexOffset,
      hr, hg, hb, AtomColor.from_parts]

/-- Witness for C5 amended, at digits `d` and `abc`. -/
theorem hex_short_forms_amended_witness :
    Ast.const_eval (Ast.HexColor (test_position ['d']))
      = .ok (.Color ⟨0x0d, 0x0d, 0x0d, 0xFF⟩) ∧
    Ast.const_eval (Ast.HexColor (test_position ['a', 'b', 'c']))
      = .ok (.Color ⟨0xa0, 0xb0, 0xc0, 0xFF⟩) := by
  have h := hex_short_forms_amended (⟨0, 0, 0, 1⟩ : Position)
  exact ⟨h.1 'd' (by decide), h.2 'a' 'b' 'c' (by decide) (by decide) (by decide)⟩

set_option maxHeartbeats 4000000 in
/-- C6: processing two same-named element declarations against one registry
adds exactly one diagnostic, a Warn-level `DoubleDefineElement` (the
errored flag stays false), the second insert fails (the registry has only
the two builtins plus one `Foo`), and `Foo` resolves to the FIRST definition
processed (here recognizable by its color `#686868`). -/
theorem duplicate_element_first_wins :
    ((parse_file duplicateFooSource 0 Diagnostics.init Element.create_map).1.diagnostics.map
        Prod.snd = [Diag.elem (.DoubleDefineElement "Foo".toList)]) ∧
    Diag.level (.elem (.DoubleDefineElement "Foo".toList)) = Level.Warn ∧
    (parse_file duplicateFooSource 0 Diagnostics.init Element.create_map).1.has_errored
      = false ∧
    (parse_file duplicateFooSource 0 Diagnostics.init Element.create_map).2.entries.length
      = 3 ∧
    (parse_file duplicateFooSource 0 Diagnostics.init Element.create_map).2.get_full_by_name
        "Foo".toList = some (2, ⟨⟨0x68, 0x68, 0x68, 0xFF⟩, JoinFace.SameAlpha⟩) := by
  refine ⟨?_, ?_, ?_, ?_, ?_⟩ <;> decide

/-- C8 counterexample: on a file whose first statement is an unexpected
token but which continues with a well-formed element declaration, the parser
does NOT recover: `Ast::generate` returns an empty AST (not a non-empty
partial one) and exactly one diagnostic (not several). -/
theorem parse_error_recovery_counterexample :
    (Ast.generate badStatementSource 0 Diagnostics.init).1 = [] ∧
    (Ast.generate badStatementSource 0 Diagnostics.init).2.diagnostics.length = 1 :=
  ⟨rfl, rfl⟩

/-- C8 amended: when the parser meets an unexpected token, the whole file's
parse aborts: `Ast::generate` either succeeds and adds no diagnostic, or
returns an EMPTY AST and adds exactly one diagnostic; there is no
statement-level recovery, no multiple syntax diagnostics and no non-empty
partial AST. -/
theorem generate_aborts_on_error (contents : List Char) (file : Nat)
    (d : Diagnostics) :
    (∃ asts, Ast.generate contents file d = (asts, d)) ∨
    ((Ast.generate contents file d).1 = [] ∧
     (Ast.generate contents file d).2.diagnostics.length
       = d.diagnostics.length + 1) := by
  cases hb : pBlock (2 * contents.length + 8) .File (trim_start ⟨contents, 0, 1, file⟩) with
  | error e =>
    right
    simp [Ast.generate, hb, Diagnostics.add]
  | ok r =>
    left
    exact ⟨r.2.object, by simp [Ast.generate, hb]⟩

/-- C9 counterexample: `Element::default()` (the element `parse_element`
starts from) has OPAQUE WHITE color `(0xFF, 0xFF, 0xFF, 0xFF)`, not the
fully transparent default the claim states; a 7-digit color assignment
therefore leaves the element white, alongside one `InvalidHexColorLen`
Error. -/
theorem transparent_default_counterexample :
    parse_element (badColorBody ⟨0, 0, 0, 1⟩) Diagnostics.init
      = (⟨AtomColor.WHITE, JoinFace.SameAlpha⟩,
         ⟨[(some ⟨0, 0, 0, 1⟩, Diag.eval .InvalidHexColorLen)], true⟩) ∧
    AtomColor.WHITE ≠ AtomColor.INVISIBLE :=
  ⟨rfl, by decide⟩

/-- C9 amended: `parse_element` initializes the element under construction
with `Element::default()`, whose color is opaque white `0xFFFFFFFF`; an
element body whose color assignment fails const-evaluation (a 7-digit hex
literal) produces an element whose color is that opaque-white default,
alongside exactly one `InvalidHexColorLen` Error diagnostic. -/
theorem parse_element_default_white (q : Position) (d : Diagnostics) :
    Element.default.color = AtomColor.WHITE ∧
    parse_element (badColorBody q) d
      = (⟨AtomColor.WHITE, JoinFace.SameAlpha⟩,
         d.add q (Diag.eval .InvalidHexColorLen)) ∧
    Diag.level (Diag.eval .InvalidHexColorLen) = Level.Error ∧
    (d.add q (Diag.eval .InvalidHexColorLen)).diagnostics.length
      = d.diagnostics.length + 1 :=
  ⟨rfl, rfl, rfl, by simp [Diagnostics.add]⟩

/-- C10: `Element::create_map()` holds exactly `Void` at id 0 and `Air` at
id 1, both fully transparent; yet `VOID_ID` and `AIR_ID` both equal 0, so
`air()` instantiates the id-0 entry — whose name is `Void`, not `Air`. -/
theorem air_uses_void_entry :
    Element.create_map.iter
      = [(0, "Void".toList, ⟨AtomColor.INVISIBLE, JoinFace.SameAlpha⟩),
         (1, "Air".toList, ⟨AtomColor.INVISIBLE, JoinFace.SameAlpha⟩)] ∧
    Element.VOID_ID = 0 ∧ Element.AIR_ID = 0 ∧
    Element.create_map.air = some ⟨AtomColor.INVISIBLE, JoinFace.SameAlpha, 0⟩ ∧
    (Element.create_map.get_full Element.AIR_ID).map Prod.fst
      = some "Void".toList ∧
    Element.create_map.get_full_by_name "Air".toList
      = some (1, ⟨AtomColor.INVISIBLE, JoinFace.SameAlpha⟩) :=
  ⟨rfl, rfl, rfl, rfl, rfl, rfl⟩

/-- C2: `insert` fails with `DuplicateName` whenever the name is present,
fails with `NoMoreIds` when the name is absent but the entry count equals
the id type's maximum value, and in both cases leaves the map completely
unchanged. -/
theorem idmap_insert_error_cases {T : Type} (maxValue : Nat) (m : IdMap T)
    (name : List Char) (value : T) :
    (name ∈ m.entries.map Prod.fst →
      m.insert maxValue name value = (.error .DuplicateName, m)) ∧
    (name ∉ m.entries.map Prod.fst → m.entries.length = maxValue →
      m.insert maxValue name value = (.error .NoMoreIds, m)) := by
  constructor
  · intro h
    simp [IdMap.insert, h]
  · intro h hlen
    simp [IdMap.insert, h, hlen]

/-- Witness for C2: a full one-entry map with `maxValue = 1` rejects both a
repeated name and a fresh one. -/
theorem idmap_insert_error_cases_witness :
    (IdMap.insert 1 ⟨[("a".toList, 0)]⟩ "a".toList 5
       = (.error .DuplicateName, ⟨[("a".toList, 0)]⟩)) ∧
    (IdMap.insert 1 ⟨[("a".toList, 0)]⟩ "b".toList 5
       = (.error .NoMoreIds, ⟨[("a".toList, 0)]⟩)) :=
  ⟨(idmap_insert_error_cases 1 ⟨[("a".toList, 0)]⟩ "a".toList 5).1 (by decide),
   (idmap_insert_error_cases 1 ⟨[("a".toList, 0)]⟩ "b".toList 5).2 (by decide)
     (by decide)⟩

/-- The errored flag after any sequence of adding calls is the flag before
them OR-ed with "some added diagnostic has Error level". -/
theorem applyAddOps_errored (ops : List AddOp) :
    ∀ d : Diagnostics, (applyAddOps d ops).errored
      = (d.errored || ops.any fun op => op.diag.level == Level.Error) := by
  induction ops with
  | nil => intro d; simp [applyAddOps]
  | cons op rest ih =>
    intro d
    rw [show applyAddOps d (op :: rest) = applyAddOps (applyAddOp d op) rest from rfl,
      ih]
    cases op <;>
      simp [applyAddOp, Diagnostics.add, Diagnostics.add_positioned,
        Diagnostics.add_unpositioned, AddOp.diag, Bool.or_assoc]

/-- C7: after any sequence of adding calls (through `add`, `add_positioned`
or `add_unpositioned`) on a fresh collection, `has_errored()` is true iff at
least one added diagnostic had Error severity; in particular a collection
with only Warn-level diagnostics (or none) reports false. -/
theorem diagnostics_has_errored_iff (ops : List AddOp) :
    (applyAddOps Diagnostics.init ops).has_errored = true ↔
      ∃ op ∈ ops, (AddOp.diag op).level = Level.Error := by
  rw [Diagnostics.has_errored, applyAddOps_errored]
  simp [Diagnostics.init]

/-- When the entry names are distinct, the linear scan of
`get_full_by_name` finds an entry exactly at its index. -/
theorem findEntry_of_nodup {T : Type} (l : List (List Char × T)) :
    ∀ (k i : Nat) (h : i < l.length), (l.map Prod.fst).Nodup →
      findEntry (l.get ⟨i, h⟩).1 l k = some (k + i, (l.get ⟨i, h⟩).2) := by
  induction l with
  | nil => intro k i h _; simp at h
  | cons hd rest ih =>
    intro k i h hnd
    cases i with
    | zero => simp [findEntry]
    | succ i =>
      have hi : i < rest.length := by simpa using h
      have hmem : (rest.get ⟨i, hi⟩).1 ∈ rest.map Prod.fst := by
        rw [List.mem_map]
        exact ⟨rest.get ⟨i, hi⟩, List.get_mem rest i hi, rfl⟩
      have hnd2 : hd.1 ∉ rest.map Prod.fst ∧ (rest.map Prod.fst).Nodup := by
        rw [List.map_cons, List.nodup_cons] at hnd
        exact hnd
      have hne : hd.1 ≠ (rest.get ⟨i, hi⟩).1 := fun hEq => hnd2.1 (hEq ▸ hmem)
      have hrec := ih (k + 1) i hi hnd2.2
      have hadd : k + 1 + i = k + (i + 1) := by omega
      rw [hadd] at hrec
      simp only [List.get_cons_succ, findEntry]
      rw [if_neg (by simpa using hne)]
      simpa using hrec

/-- A run of successful inserts: with fresh distinct names and capacity for
all of them, `insertSeq` returns the consecutive ids starting at the current
size and appends the entries in order. -/
theorem insertSeq_spec {T : Type} (maxValue : Nat) (l : List (List Char × T)) :
    ∀ m : IdMap T,
      ((m.entries ++ l).map Prod.fst).Nodup →
      m.entries.length + l.length ≤ maxValue →
      insertSeq maxValue m l
        = ((List.range' m.entries.length l.length).map Except.ok,
           ⟨m.entries ++ l⟩) := by
  induction l with
  | nil => intro m _ _; simp [insertSeq]
  | cons hd rest ih =>
    intro m hnd hlen
    obtain ⟨name, value⟩ := hd
    have hnotmem : name ∉ m.entries.map Prod.fst := by
      intro hmem
      have hdisj := (List.nodup_append.mp (by simpa using hnd)).2.2
      exact hdisj hmem (List.mem_cons_self name (rest.map Prod.fst))
    have hlt : m.entries.length < maxValue := by
      simp at hlen; omega
    have hins : m.insert maxValue name value
        = (.ok m.entries.length, ⟨m.entries ++ [(name, value)]⟩) := by
      simp [IdMap.insert, hnotmem, hlt]
    have hnd' : (((⟨m.entries ++ [(name, value)]⟩ : IdMap T).entries ++ rest).map
        Prod.fst).Nodup := by
      simpa [List.append_assoc] using hnd
    have hlen' : (⟨m.entries ++ [(name, value)]⟩ : IdMap T).entries.length
        + rest.length ≤ maxValue := by
      simp at hlen ⊢; omega
    have ihr := ih ⟨m.entries ++ [(name, value)]⟩ hnd' hlen'
    show (let step := m.insert maxValue name value
          let result := insertSeq maxValue step.2 rest
          (step.1 :: result.1, result.2)) = _
    rw [hins]
    simp only [ihr]
    simp [List.range'_succ, List.append_assoc]

/-- C3: inserting distinct names into a fresh `IdMap` (within capacity)
returns ids 0, 1, 2, … in order; afterwards `get(id)` returns each inserted
value, `get_full_by_name(name)` returns the same id with that value, and
`iter()` yields all entries in insertion order with ids `0..N`. -/
theorem idmap_sequential_inserts {T : Type} (maxValue : Nat)
    (l : List (List Char × T)) (hnd : (l.map Prod.fst).Nodup)
    (hlen : l.length ≤ maxValue) :
    (insertSeq maxValue (IdMap.new T) l).1 = (List.range l.length).map Except.ok ∧
    (∀ i (h : i < l.length),
      (insertSeq maxValue (IdMap.new T) l).2.get i = some (l.get ⟨i, h⟩).2) ∧
    (∀ i (h : i < l.length),
      (insertSeq maxValue (IdMap.new T) l).2.get_full_by_name (l.get ⟨i, h⟩).1
        = some (i, (l.get ⟨i, h⟩).2)) ∧
    (insertSeq maxValue (IdMap.new T) l).2.iter
      = l.enum.map (fun p => (p.1, p.2.1, p.2.2)) := by
  have hspec := insertSeq_spec maxValue l (IdMap.new T)
    (by simpa [IdMap.new] using hnd) (by simpa [IdMap.new] using hlen)
  refine ⟨?_, ?_, ?_, ?_⟩
  · rw [hspec]
    simp [IdMap.new, List.range_eq_range']
  · intro i h
    rw [hspec]
    simp only [IdMap.new, IdMap.get, List.nil_append, List.get?_eq_get h,
      Option.map_some']
  · intro i h
    rw [hspec]
    simpa [IdMap.new, IdMap.get_full_by_name] using findEntry_of_nodup l 0 i h hnd
  · rw [hspec]
    simp [IdMap.new, IdMap.iter]

/-- Witness for C3: two inserts into a fresh map return ids 0 and 1, and
both lookups and iteration see both entries. -/
theorem idmap_sequential_inserts_witness :
    (insertSeq 255 (IdMap.new Nat) [("a".toList, 10), ("b".toList, 20)]).1
      = [Except.ok 0, Except.ok 1] ∧
    (insertSeq 255 (IdMap.new Nat) [("a".toList, 10), ("b".toList, 20)]).2.get 1
      = some 20 ∧
    (insertSeq 255 (IdMap.new Nat) [("a".toList, 10), ("b".toList, 20)]).2.get_full_by_name
        "b".toList = some (1, 20) ∧
    (insertSeq 255 (IdMap.new Nat) [("a".toList, 10), ("b".toList, 20)]).2.iter
      = [(0, "a".toList, 10), (1, "b".toList, 20)] := by
  have h := idmap_sequential_inserts 255 [("a".toList, 10), ("b".toList, 20)]
    (by decide) (by decide)
  exact ⟨h.1, h.2.1 1 (by decide), h.2.2.1 1 (by decide), h.2.2.2⟩

/-- An accepted hex digit is ASCII, hence one UTF-8 byte. -/
theorem utf8Size_of_hexDigit {c : Char} (h : isHexDigitChar c = true) :
    c.utf8Size = 1 := by
  simp only [isHexDigitChar, Bool.or_eq_true, Bool.and_eq_true,
    decide_eq_true_eq] at h
  have hle : c.toNat ≤ 102 := by omega
  have hcond : c.val ≤ UInt32.ofNatCore 127 Char.utf8Size.proof_1 :=
    show c.val.toNat ≤ 127 from le_trans hle (by norm_num)
  unfold Char.utf8Size
  rw [if_pos hcond]

/-- A string of accepted hex digits has as many bytes as characters. -/
theorem utf8Len_all_hex {cs : List Char}
    (h : ∀ c ∈ cs, isHexDigitChar c = true) : utf8Len cs = cs.length := by
  induction cs with
  | nil => rfl
  | cons c rest ih =>
    have hc := utf8Size_of_hexDigit (h c (List.mem_cons_self c rest))
    simp [utf8Len, hc, ih (fun x hx => h x (List.mem_cons_of_mem c hx))]
    omega

/-- The validation loop accepts a string of hex digits. -/
theorem firstNonHex_none {cs : List Char}
    (h : ∀ c ∈ cs, isHexDigitChar c = true) :
    ∀ off, firstNonHexOffset cs off = none := by
  induction cs with
  | nil => intro off; rfl
  | cons c rest ih =>
    intro off
    simp only [firstNonHexOffset, h c (List.mem_cons_self c rest), if_true]
    exact ih (fun x hx => h x (List.mem_cons_of_mem c hx)) _

/-- The validation loop stops at the first non-hex character, reporting its
byte offset. -/
theorem firstNonHex_prefix {pre : List Char} :
    ∀ (off : Nat) (c : Char) (suf : List Char),
      (∀ x ∈ pre, isHexDigitChar x = true) → isHexDigitChar c = false →
      firstNonHexOffset (pre ++ c :: suf) off = some (off + utf8Len pre) := by
  induction pre with
  | nil =>
    intro off c suf _ hc
    simp [firstNonHexOffset, hc, utf8Len]
  | cons x rest ih =>
    intro off c suf hpre hc
    have hx := hpre x (List.mem_cons_self x rest)
    rw [List.cons_append]
    simp only [firstNonHexOffset, hx, if_true]
    rw [ih (off + x.utf8Size) c suf (fun y hy => hpre y (List.mem_cons_of_mem x hy)) hc]
    simp [utf8Len]
    omega

/-- On an all-hex string of one of the six accepted lengths, `constEvalHex`
returns a color. -/
theorem constEvalHex_ok_lengths (p : Position) (cs : List Char)
    (hhex : ∀ c ∈ cs, isHexDigitChar c = true)
    (hlen : cs.length = 1 ∨ cs.length = 2 ∨ cs.length = 3 ∨ cs.length = 4 ∨
      cs.length = 6 ∨ cs.length = 8) :
    ∃ color, constEvalHex p cs = .ok (.Color color) := by
  have hnone := firstNonHex_none hhex 0
  rcases cs with _ | ⟨c1, _ | ⟨c2, _ | ⟨c3, _ | ⟨c4, _ | ⟨c5, _ | ⟨c6, _ |
    ⟨c7, _ | ⟨c8, t⟩⟩⟩⟩⟩⟩⟩⟩
  · simp at hlen
  · exact ⟨AtomColor.from_grey (hexMap c1), by simp [constEvalHex, hnone]⟩
  · exact ⟨AtomColor.from_grey (hexMap c1 <<< 4 ||| hexMap c2),
      by simp [constEvalHex, hnone]⟩
  · exact ⟨AtomColor.from_parts (hexMap c1 <<< 4) (hexMap c2 <<< 4)
      (hexMap c3 <<< 4) 0xFF, by simp [constEvalHex, hnone]⟩
  · exact ⟨AtomColor.from_parts (hexMap c1 <<< 4) (hexMap c2 <<< 4)
      (hexMap c3 <<< 4) (hexMap c4 <<< 4), by simp [constEvalHex, hnone]⟩
  · simp at hlen
  · exact ⟨AtomColor.from_parts (hexMap c1 <<< 4 ||| hexMap c2)
      (hexMap c3 <<< 4 ||| hexMap c4) (hexMap c5 <<< 4 ||| hexMap c6) 0xFF,
      by simp [constEvalHex, hnone]⟩
  · simp at hlen
  · cases t with
    | nil =>
      exact ⟨AtomColor.from_parts (hexMap c1 <<< 4 ||| hexMap c2)
        (hexMap c3 <<< 4 ||| hexMap c4) (hexMap c5 <<< 4 ||| hexMap c6)
        (hexMap c7 <<< 4 ||| hexMap c8), by simp [constEvalHex, hnone]⟩
    | cons u t2 =>
      simp at hlen

/-- On an all-hex string of any other length, `constEvalHex` reports
`InvalidHexColorLen` at the node's position. -/
theorem constEvalHex_bad_length (p : Position) (cs : List Char)
    (hhex : ∀ c ∈ cs, isHexDigitChar c = true)
    (hlen : ¬(cs.length = 1 ∨ cs.length = 2 ∨ cs.length = 3 ∨ cs.length = 4 ∨
      cs.length = 6 ∨ cs.length = 8)) :
    constEvalHex p cs = .error (p.position .InvalidHexColorLen) := by
  have hnone := firstNonHex_none hhex 0
  rcases cs with _ | ⟨c1, _ | ⟨c2, _ | ⟨c3, _ | ⟨c4, _ | ⟨c5, _ | ⟨c6, _ |
    ⟨c7, _ | ⟨c8, t⟩⟩⟩⟩⟩⟩⟩⟩
  · simp [constEvalHex, hnone]
  · simp at hlen
  · simp at hlen
  · simp at hlen
  · simp at hlen
  · simp [constEvalHex, hnone]
  · simp at hlen
  · simp [constEvalHex, hnone]
  · cases t with
    | nil => simp at hlen
    | cons u t2 => simp [constEvalHex, hnone]

/-- `constEvalHex` reports `InvalidHexDigit` exactly at the first non-hex
character. -/
theorem constEvalHex_first_bad (p : Position) (pre : List Char) (c : Char)
    (suf : List Char) (hpre : ∀ x ∈ pre, isHexDigitChar x = true)
    (hc : isHexDigitChar c = false) :
    constEvalHex p (pre ++ c :: suf)
      = .error ((p.char_inline (utf8Len pre)).position .InvalidHexDigit) := by
  have hfirst := firstNonHex_prefix 0 c suf hpre hc
  simp [constEvalHex, hfirst]

/-- C4: on the `HexColor` node, `const_eval` (i) returns a color, with no
error, for every all-hex string of length 1, 2, 3, 4, 6 or 8; (ii) returns
exactly one `InvalidHexColorLen` error for an all-hex string of any other
length; (iii) returns exactly one `InvalidHexDigit` error positioned at the
offset of the first non-hex character otherwise. -/
theorem hex_color_validation (p : Position) (cs : List Char) :
    ((∀ c ∈ cs, isHexDigitChar c = true) →
      (cs.length = 1 ∨ cs.length = 2 ∨ cs.length = 3 ∨ cs.length = 4 ∨
        cs.length = 6 ∨ cs.length = 8) →
      ∃ color, Ast.const_eval (Ast.HexColor (p.position cs))
        = .ok (.Color color)) ∧
    ((∀ c ∈ cs, isHexDigitChar c = true) →
      ¬(cs.length = 1 ∨ cs.length = 2 ∨ cs.length = 3 ∨ cs.length = 4 ∨
        cs.length = 6 ∨ cs.length = 8) →
      Ast.const_eval (Ast.HexColor (p.position cs))
        = .error (p.position .InvalidHexColorLen)) ∧
    (∀ pre c suf, cs = pre ++ c :: suf →
      (∀ x ∈ pre, isHexDigitChar x = true) → isHexDigitChar c = false →
      Ast.const_eval (Ast.HexColor (p.position cs))
        = .error ((p.char_inline pre.length).position .InvalidHexDigit)) := by
  refine ⟨?_, ?_, ?_⟩
  · intro hhex hlen
    exact constEvalHex_ok_lengths p cs hhex hlen
  · intro hhex hlen
    exact constEvalHex_bad_length p cs hhex hlen
  · intro pre c suf hEq hpre hc
    subst hEq
    have h1 := constEvalHex_first_bad p pre c suf hpre hc
    rwa [utf8Len_all_hex hpre] at h1

/-- Witness for C4, at `1234` (valid), `12345` (bad length) and `12g45`
(bad digit at offset 2). -/
theorem hex_color_validation_witness :
    (∃ color, Ast.const_eval (Ast.HexColor (test_position "1234".toList))
      = .ok (.Color color)) ∧
    Ast.const_eval (Ast.HexColor (test_position "12345".toList))
      = .error ((⟨0, 0, 0, 1⟩ : Position).position .InvalidHexColorLen) ∧
    Ast.const_eval (Ast.HexColor (test_position "12g45".toList))
      = .error (((⟨0, 0, 0, 1⟩ : Position).char_inline 2).position
          .InvalidHexDigit) := by
  refine ⟨(hex_color_validation ⟨0, 0, 0, 1⟩ "1234".toList).1 (by decide)
      (by decide),
    (hex_color_validation ⟨0, 0, 0, 1⟩ "12345".toList).2.1 (by decide)
      (by decide), ?_⟩
  exact (hex_color_validation ⟨0, 0, 0, 1⟩ "12g45".toList).2.2 "12".toList 'g'
    "45".toList (by decide) (by decide) (by decide)

end ParticleSim
